import Mathlib

/-!
Shallow embedding of `scripts/convert_csv_to_json.py` (Musicdott 1.0 → 2.0
CSV-to-JSON converter).

Python strings are modelled as `List Char`; CSV rows as association lists of
(column name, value) pairs, matching the dictionaries produced by
`csv.DictReader`.  Python `str.strip` / `str.lower` are modelled on ASCII
(`Char.isWhitespace` / `Char.toLower`), which covers every string the script
manipulates.  Machine integers do not occur: Python's `int` is unbounded and is
modelled by `Int`.
-/

namespace Musicdott

/-- Python strings, modelled as lists of characters. -/
abbrev Str := List Char

/-- The double-quote character. -/
def quoteD : Char := Char.ofNat 34

/-- The single-quote character. -/
def quoteS : Char := Char.ofNat 39

/-- Whether a character is one of the two quote characters of the regex
character class in `normalize_groovescribe`. -/
def isQuoteC (c : Char) : Bool := c = quoteD || c = quoteS

/-- Python `str.strip()`: remove leading and trailing whitespace. -/
def pyStrip (s : Str) : Str :=
  ((s.dropWhile Char.isWhitespace).reverse.dropWhile Char.isWhitespace).reverse

/-- Python `str.lower()` (ASCII). -/
def pyLower (s : Str) : Str := s.map Char.toLower

/-- Python truthiness-based `a or b` on strings: `b` if `a` is empty, else `a`. -/
def pyOr (a b : Str) : Str := if a = [] then b else a

/-- A CSV row as produced by `csv.DictReader`: an association list from column
names to cell values.  A missing key models both an absent column and a `None`
value (`safe_get` treats the two identically). -/
abbrev Row := List (Str × Str)

/-- Dictionary lookup on a row.  As in a Python `dict`, when a key was bound
twice the later binding wins. -/
def rowGet (row : Row) (key : Str) : Option Str :=
  (row.reverse.find? (fun p => p.1 == key)).map Prod.snd

/-- Translation of `safe_get(row, key, default="")`: missing keys and values
that strip-lowercase to `"nan"` give the default (the empty string at every
call site of the script); otherwise the stripped value. -/
def safe_get (row : Row) (key : Str) : Str :=
  match rowGet row key with
  | none => []
  | some v => if pyLower (pyStrip v) = ("nan").data then [] else pyStrip v

/-- Decimal digits of a natural number. -/
def natStr (n : Nat) : Str := Nat.toDigits 10 n

/-- Python `str(i)` for an unbounded integer. -/
def intStr (i : Int) : Str :=
  if i < 0 then '-' :: natStr i.natAbs else natStr i.toNat

/-- Python format spec `f"{i:02d}"`: pad with a leading zero to width 2 (the
sign counts toward the width, as in Python). -/
def pad2 (i : Int) : Str :=
  let s := intStr i
  if s.length < 2 then '0' :: s else s

/-- Zero-pad the decimal digits of `n` to width `w` (Python `%0wd` for
nonnegative numbers, as used by `strftime`). -/
def natPad (w : Nat) (n : Nat) : Str :=
  List.replicate (w - (natStr n).length) '0' ++ natStr n

/-- Digit-group tail parser for Python `int()`: after a first digit has been
read, digits continue, with single underscores allowed between digits. -/
def digitsCore (acc : Nat) : Str → Option Nat
  | [] => some acc
  | c :: rest =>
    if c.isDigit then digitsCore (acc * 10 + (c.toNat - 48)) rest
    else if c = '_' then
      match rest with
      | d :: rest2 =>
        if d.isDigit then digitsCore (acc * 10 + (d.toNat - 48)) rest2 else none
      | [] => none
    else none

/-- Python `int(s)` on an ASCII string: optional surrounding whitespace, an
optional sign, then digits with single underscores allowed between digits.
`none` models the `ValueError` that a failed conversion raises. -/
def pyInt (s : Str) : Option Int :=
  match pyStrip s with
  | '+' :: d :: rest =>
    if d.isDigit then (digitsCore (d.toNat - 48) rest).map Int.ofNat else none
  | '-' :: d :: rest =>
    if d.isDigit then (digitsCore (d.toNat - 48) rest).map (fun n => -(n : Int))
    else none
  | d :: rest =>
    if d.isDigit then (digitsCore (d.toNat - 48) rest).map Int.ofNat else none
  | [] => none

/-- One attempt of the regex `src=["\']([^"\']+)["\']` (with `re.IGNORECASE`)
at the head of the string: case-insensitive `src=`, an opening quote, a
nonempty maximal run of non-quote characters, and a closing quote; the group is
that run. -/
def srcHere (s : Str) : Option Str :=
  match s with
  | c1 :: c2 :: c3 :: c4 :: c5 :: rest =>
    if c1.toLower = 's' ∧ c2.toLower = 'r' ∧ c3.toLower = 'c' ∧ c4 = '=' ∧
        isQuoteC c5 then
      let run := rest.takeWhile (fun c => !isQuoteC c)
      let after := rest.dropWhile (fun c => !isQuoteC c)
      if run ≠ [] ∧ after ≠ [] then some run else none
    else none
  | _ => none

/-- Translation of `re.search(r'src=["\']([^"\']+)["\']', s, re.IGNORECASE)`:
the group of the leftmost match, scanning positions left to right. -/
def findSrc : Str → Option Str
  | [] => none
  | c :: rest =>
    match srcHere (c :: rest) with
    | some r => some r
    | none => findSrc rest

/-- The remainder of the string after the first occurrence of character `c`
(Python `s.split(c, 1)[1]`); `none` when `c` does not occur. -/
def afterChar (c : Char) : Str → Option Str
  | [] => none
  | x :: xs => if x = c then some xs else afterChar c xs

/-- The remainder after the first occurrence of the substring `pat`
(Python `s.split(pat, 1)[1]`); `none` when `pat` does not occur (nonempty
`pat`). -/
def afterSub (pat : Str) : Str → Option Str
  | [] => none
  | x :: xs =>
    if pat.isPrefixOf (x :: xs) then some ((x :: xs).drop pat.length)
    else afterSub pat xs

/-- Query extraction shared by cases 1 and 2 of `normalize_groovescribe`:
everything after the first `?` when one occurs, else `TimeSig=` plus everything
after the first `TimeSig=` when one occurs, else the empty string. -/
def extractQuery (u : Str) : Str :=
  match afterChar '?' u with
  | some q => q
  | none =>
    match afterSub (("TimeSig=").data) u with
    | some rest => ("TimeSig=").data ++ rest
    | none => []

/-- The canonical Groovescribe iframe built from a query string, exactly the
f-string of `normalize_groovescribe`. -/
def canonIframe (q : Str) : Str :=
  ("<iframe width=\"100%\" height=\"240\" src=\"https://teacher.musicdott.com/groovescribe/GrooveEmbed.html?").data
    ++ q ++ ("\" frameborder=\"0\"></iframe>").data

/-- Branch structure of `normalize_groovescribe` applied to the stripped
input: iframe, full URL, and bare-query cases, with fall-through returning the
input. -/
def ngCore (s : Str) : Str :=
  if ("<iframe").data.isPrefixOf s then
    match findSrc s with
    | some src_url =>
      let query := extractQuery src_url
      if query ≠ [] then canonIframe query else s
    | none => s
  else if ("http").data.isPrefixOf s then
    let query := extractQuery s
    if query ≠ [] then canonIframe query else s
  else if ("?TimeSig=").data.isPrefixOf s then canonIframe (s.drop 1)
  else if ("TimeSig=").data.isPrefixOf s then canonIframe s
  else s

/-- Translation of `normalize_groovescribe`. -/
def normalize_groovescribe (input_str : Str) : Str :=
  if input_str = [] ∨ pyLower (pyStrip input_str) = ("nan").data then []
  else ngCore (pyStrip input_str)

/-- Characters matched by the regex class `[a-zA-Z0-9_-]` of the YouTube
patterns. -/
def ytAllowed (c : Char) : Bool := c.isAlphanum || c = '_' || c = '-'

/-- Search for the first occurrence of the mandatory core of a YouTube URL
pattern followed by at least one `[a-zA-Z0-9_-]` character; the group is the
maximal such run.  The optional `(?:https?://)?(?:www\.)?` prefixes of the
patterns never constrain where `re.search` can match, so only the core
matters. -/
def findCore (pat : Str) : Str → Option Str
  | [] => none
  | x :: xs =>
    if pat.isPrefixOf (x :: xs) then
      let rest := (x :: xs).drop pat.length
      let run := rest.takeWhile ytAllowed
      if run ≠ [] then some run else findCore pat xs
    else findCore pat xs

/-- The YouTube embed f-string of `youtube_url_to_iframe`. -/
def ytIframe (video_id : Str) : Str :=
  ("<iframe width=\"560\" height=\"315\" src=\"https://www.youtube.com/embed/").data
    ++ video_id
    ++ ("\" title=\"YouTube video player\" frameborder=\"0\" allow=\"accelerometer; autoplay; clipboard-write; encrypted-media; gyroscope; picture-in-picture; web-share\" referrerpolicy=\"strict-origin-when-cross-origin\" allowfullscreen></iframe>").data

/-- Translation of `youtube_url_to_iframe`: the four patterns are tried in
order (the fourth core coincides with the first, as `(?:m\.)?` is optional). -/
def youtube_url_to_iframe (url : Str) : Str :=
  if url = [] ∨ pyLower (pyStrip url) = ("nan").data then []
  else
    let s := pyStrip url
    match findCore (("youtube.com/watch?v=").data) s with
    | some video_id => ytIframe video_id
    | none =>
      match findCore (("youtu.be/").data) s with
      | some video_id => ytIframe video_id
      | none =>
        match findCore (("youtube.com/shorts/").data) s with
        | some video_id => ytIframe video_id
        | none =>
          match findCore (("youtube.com/watch?v=").data) s with
          | some video_id => ytIframe video_id
          | none => s

/-- A song record of `musicdott2_songs.json`. -/
structure Song where
  title : Str
  artist : Str
  instrument : Str
  level : Str
  description : Str
  content : Str
deriving DecidableEq

/-- A lesson record of `musicdott2_lessons.json`. -/
structure Lesson where
  title : Str
  description : Str
  contentType : Str
  instrument : Str
  level : Str
  content : Str
deriving DecidableEq

/-- A student record of `musicdott2_students.json`; `none` models JSON
`null`. -/
structure Student where
  id : Str
  firstName : Str
  lastName : Str
  fullName : Str
  email : Option Str
  phone : Option Str
  city : Option Str
  notes : Option Str
  instrument : Str
deriving DecidableEq

/-- The `ical` sub-object of a schedule entry. -/
structure Ical where
  dtstart : Str
  tzid : Str
  rrule : Str
deriving DecidableEq

/-- A schedule entry of `musicdott2_schedule.json`. -/
structure ScheduleEntry where
  studentId : Str
  studentName : Str
  email : Str
  dayOfWeek : Str
  startTime : Str
  durationMin : Int
  timezone : Str
  frequency : Str
  ical : Ical
  notes : Option Str
deriving DecidableEq

/-- Title construction of a song row: `safe_get(row,'soTitel') or
safe_get(row,'titel') or f"Song #{row_num}"`. -/
def songTitle (row_num : Nat) (row : Row) : Str :=
  pyOr (pyOr (safe_get row (("soTitel").data)) (safe_get row (("titel").data)))
    (("Song #").data ++ natStr row_num)

/-- Artist construction of a song row. -/
def songArtist (row : Row) : Str :=
  pyOr (pyOr (safe_get row (("soArtiest").data)) (safe_get row (("artiest").data)))
    (("Unknown Artist").data)

/-- Description built from genre, BPM and length, skipping empty and `"0"`
values, joined with `" | "`. -/
def songDescription (row : Row) : Str :=
  let genre := pyOr (safe_get row (("soGenre").data)) (safe_get row (("genre").data))
  let bpm := pyOr (safe_get row (("soBPM").data)) (safe_get row (("bpm").data))
  let length := pyOr (safe_get row (("soLengte").data)) (safe_get row (("lengte").data))
  let desc_parts :=
    (if genre ≠ [] ∧ genre ≠ ("0").data then [("Genre: ").data ++ genre] else [])
    ++ (if bpm ≠ [] ∧ bpm ≠ ("0").data then [("BPM: ").data ++ bpm] else [])
    ++ (if length ≠ [] ∧ length ≠ ("0").data then [("Lengte: ").data ++ length] else [])
  if desc_parts = [] then [] else List.intercalate ((" | ").data) desc_parts

/-- The Groovescribe part of a song's content for notation slot `i`
(`soNotatie0i` / `notatie0i` with its `soOpmerkingen0i` remark). -/
def songNotatiePart (row : Row) (i : Nat) : List Str :=
  let nota := pyOr (safe_get row (("soNotatie0").data ++ natStr i))
    (safe_get row (("notatie0").data ++ natStr i))
  if nota ≠ [] then
    let normalized_groove := normalize_groovescribe nota
    if normalized_groove ≠ [] then
      let remarks := pyOr (safe_get row (("soOpmerkingen0").data ++ natStr i))
        (safe_get row (("opmerkingen0").data ++ natStr i))
      normalized_groove ::
        (if remarks ≠ [] then [("Note: ").data ++ remarks] else [])
    else []
  else []

/-- Content of a song row: YouTube iframe, Spotify/Apple/Lyrics links and the
three Groovescribe notation slots, joined with blank lines. -/
def songContent (row : Row) : Str :=
  let youtube := pyOr (safe_get row (("soYouTube").data)) (safe_get row (("youtube").data))
  let ytPart :=
    if youtube ≠ [] then
      let iframe := youtube_url_to_iframe youtube
      if iframe ≠ [] then [iframe] else []
    else []
  let spotify := pyOr (safe_get row (("soSpotify").data)) (safe_get row (("spotify").data))
  let spPart := if spotify ≠ [] then [("Spotify: ").data ++ spotify] else []
  let apple := pyOr (safe_get row (("soAppleMusic").data)) (safe_get row (("apple_music").data))
  let apPart := if apple ≠ [] then [("Apple Music: ").data ++ apple] else []
  let lyrics := pyOr (safe_get row (("soLyrics").data)) (safe_get row (("lyrics").data))
  let lyPart := if lyrics ≠ [] then [("Lyrics: ").data ++ lyrics] else []
  let content_parts := ytPart ++ spPart ++ apPart ++ lyPart
    ++ ([1, 2, 3].flatMap (songNotatiePart row))
  List.intercalate (("\n\n").data) content_parts

/-- One song record from one CSV row (`row_num` as in `enumerate(reader, 1)`). -/
def songRow (row_num : Nat) (row : Row) : Song :=
  { title := songTitle row_num row
    artist := songArtist row
    instrument := ("drums").data
    level := ("all").data
    description := songDescription row
    content := songContent row }

/-- Title construction of a notation row from category, chapter and sequence
number, with `Pattern #<row_num>` as the fallback. -/
def notatieTitle (row_num : Nat) (row : Row) : Str :=
  let category := pyOr (safe_get row (("noCategorie").data)) (safe_get row (("categorie").data))
  let chapter := pyOr (safe_get row (("noHoofdstuk").data)) (safe_get row (("hoofdstuk").data))
  let sequence := pyOr (safe_get row (("noVolgnummer").data)) (safe_get row (("volgnummer").data))
  if category ≠ [] ∧ chapter ≠ [] ∧ sequence ≠ [] then
    category ++ (" – ").data ++ chapter ++ (" – #").data ++ sequence
  else if category ≠ [] ∧ sequence ≠ [] then
    category ++ (" – #").data ++ sequence
  else ("Pattern #").data ++ natStr row_num

/-- Content of a notation row: normalized Groovescribe, video iframe and the
MuseScore/MusicXML/PDF/MP3 links, joined with blank lines. -/
def notatieContent (row : Row) : Str :=
  let nota := pyOr (safe_get row (("noNotatie").data)) (safe_get row (("notatie").data))
  let notaPart :=
    if nota ≠ [] then
      let normalized_groove := normalize_groovescribe nota
      if normalized_groove ≠ [] then [normalized_groove] else []
    else []
  let video := pyOr (safe_get row (("noVideo").data)) (safe_get row (("video").data))
  let viPart :=
    if video ≠ [] then
      let iframe := youtube_url_to_iframe video
      if iframe ≠ [] then [("Video: ").data ++ iframe] else []
    else []
  let musescore := pyOr (safe_get row (("noMusescore").data)) (safe_get row (("musescore").data))
  let muPart := if musescore ≠ [] then [("MuseScore: ").data ++ musescore] else []
  let musicxml := safe_get row (("musicxml").data)
  let mxPart := if musicxml ≠ [] then [("MusicXML: ").data ++ musicxml] else []
  let pdf_lesson := pyOr (safe_get row (("noPDFlesson").data)) (safe_get row (("pdf_lesson").data))
  let pdPart := if pdf_lesson ≠ [] then [("PDF: ").data ++ pdf_lesson] else []
  let mp3 := pyOr (safe_get row (("noMP3").data)) (safe_get row (("mp3").data))
  let mpPart := if mp3 ≠ [] then [("MP3: ").data ++ mp3] else []
  List.intercalate (("\n\n").data)
    (notaPart ++ viPart ++ muPart ++ mxPart ++ pdPart ++ mpPart)

/-- One lesson record from one CSV row of `POS_Notatie.csv`. -/
def notatieRow (row_num : Nat) (row : Row) : Lesson :=
  { title := notatieTitle row_num row
    description := pyOr (safe_get row (("noOpmerkingen").data)) (safe_get row (("opmerkingen").data))
    contentType := ("notation").data
    instrument := ("drums").data
    level := ("all").data
    content := notatieContent row }

/-- The `day_mapping` lookup table of the students converter. -/
def day_mapping (d : Str) : Option Str :=
  if d = ("ma").data ∨ d = ("maandag").data ∨ d = ("monday").data then some (("MO").data)
  else if d = ("di").data ∨ d = ("dinsdag").data ∨ d = ("tuesday").data then some (("TU").data)
  else if d = ("wo").data ∨ d = ("woensdag").data ∨ d = ("wednesday").data then some (("WE").data)
  else if d = ("do").data ∨ d = ("donderdag").data ∨ d = ("thursday").data then some (("TH").data)
  else if d = ("vr").data ∨ d = ("vrijdag").data ∨ d = ("friday").data then some (("FR").data)
  else if d = ("za").data ∨ d = ("zaterdag").data ∨ d = ("saturday").data then some (("SA").data)
  else if d = ("zo").data ∨ d = ("zondag").data ∨ d = ("sunday").data then some (("SU").data)
  else none

/-- Python `['MO','TU','WE','TH','FR','SA','SU'].index(day_code)` (the codes
passed in always come from `day_mapping`, so the lookup never fails). -/
def dayIndex (day_code : Str) : Nat :=
  (["MO", "TU", "WE", "TH", "FR", "SA", "SU"].map String.data).indexOf day_code

/-- Replace every `.` by `:` (Python `time_raw.replace('.', ':')`). -/
def mapDots (s : Str) : Str := s.map (fun c => if c = '.' then ':' else c)

/-- Python `str.split(sep)` for a single-character separator. -/
def splitOnChar (c : Char) : Str → List Str
  | [] => [[]]
  | x :: xs =>
    let r := splitOnChar c xs
    if x = c then [] :: r
    else
      match r with
      | [] => [[x]]
      | h :: t => (x :: h) :: t

/-- The time-parsing path of the students converter: replace dots by colons,
require exactly two `':'`-separated parts, and convert both with `int()`;
`none` models every `continue`. -/
def parseTime (time_raw : Str) : Option (Int × Int) :=
  let time_clean := mapDots time_raw
  if ':' ∈ time_clean ∧ (splitOnChar ':' time_clean).length = 2 then
    match splitOnChar ':' time_clean with
    | [hs, ms] =>
      match pyInt hs, pyInt ms with
      | some hours, some minutes => some (hours, minutes)
      | _, _ => none
    | _ => none
  else none

/-- Duration parsing with its 30-minute default (`int(duration_raw)` guarded
by a bare `except`). -/
def lessonDuration (duration_raw : Str) : Int :=
  if duration_raw = [] ∨ duration_raw = ("nan").data then 30
  else (pyInt duration_raw).getD 30

/-- Gregorian date of the day `days` days after 1970-01-01 (the civil-from-days
algorithm underlying `datetime`); models
`(datetime.now() + timedelta(days)).strftime` date components for dates on or
after the epoch. -/
def civilFromDays (days : Nat) : Nat × Nat × Nat :=
  let z := days + 719468
  let era := z / 146097
  let doe := z % 146097
  let yoe := ((doe + doe / 36524) - (doe / 1460 + doe / 146096)) / 365
  let y := yoe + era * 400
  let doy := doe - ((365 * yoe + yoe / 4) - yoe / 100)
  let mp := (5 * doy + 2) / 153
  let d := (doy + 1) - (153 * mp + 2) / 5
  let m := if mp < 10 then mp + 3 else mp - 9
  (if m ≤ 2 then y + 1 else y, m, d)

/-- Python `strftime('%Y%m%d')` of the day `days` days after 1970-01-01. -/
def fmtYmd (days : Nat) : Str :=
  let c := civilFromDays days
  natPad 4 c.1 ++ natPad 2 c.2.1 ++ natPad 2 c.2.2

/-- The iCal `DTSTART` computation: days-ahead to the next occurrence of
`day_code` (mapping "today" to "next week"), formatted date plus the start time
with the colon removed.  The current moment `datetime.now()` is modelled by
`today`, the number of days since 1970-01-01 (a Thursday, so Python's
`weekday()` is `(today + 3) % 7`); only the date component is ever used. -/
def mkDtstart (today : Nat) (day_code : Str) (start_time : Str) : Str :=
  let days_ahead0 : Int := ((dayIndex day_code : Int) - ((today + 3) % 7 : Nat)) % 7
  let days_ahead : Nat := if days_ahead0 = 0 then 7 else days_ahead0.toNat
  let next_occurrence := today + days_ahead
  fmtYmd next_occurrence ++ 'T' :: (start_time.filter (fun c => c ≠ ':')) ++ ("00").data

/-- One lesson slot (`stLesdag{i}`/`stLestijd{i}`/`stLesduur{i}`) of a student
row; `none` models every `continue` of the schedule loop. -/
def lessonSlot (today : Nat) (student_id fullName email : Str)
    (notes : Option Str) (row : Row) (i : Nat) : Option ScheduleEntry :=
  let day_raw := safe_get row (("stLesdag").data ++ natStr i)
  let time_raw := safe_get row (("stLestijd").data ++ natStr i)
  let duration_raw := safe_get row (("stLesduur").data ++ natStr i)
  if day_raw = [] ∨ time_raw = [] ∨ day_raw = ("nan").data ∨ time_raw = ("nan").data then
    none
  else
    match day_mapping (pyStrip (pyLower day_raw)) with
    | none => none
    | some day_code =>
      match parseTime time_raw with
      | none => none
      | some (hours, minutes) =>
        let start_time := pad2 hours ++ ':' :: pad2 minutes
        some
          { studentId := student_id
            studentName := fullName
            email := email
            dayOfWeek := day_code
            startTime := start_time
            durationMin := lessonDuration duration_raw
            timezone := ("Europe/Amsterdam").data
            frequency := ("WEEKLY").data
            ical :=
              { dtstart := mkDtstart today day_code start_time
                tzid := ("Europe/Amsterdam").data
                rrule := ("FREQ=WEEKLY;BYDAY=").data ++ day_code
                  ++ (";BYHOUR=").data ++ intStr hours
                  ++ (";BYMINUTE=").data ++ intStr minutes
                  ++ (";BYSECOND=0").data }
            notes := notes }

/-- Convert a field to the JSON value `x if x and x != "nan" else None`. -/
def optNan (v : Str) : Option Str :=
  if v = [] ∨ v = ("nan").data then none else some v

/-- One student row: the student record plus its (up to two) schedule
entries, in slot order. -/
def studentRowF (today : Nat) (row_num : Nat) (row : Row) :
    Student × List ScheduleEntry :=
  let student_id := pyOr (safe_get row (("stid").data)) (natStr row_num)
  let first_name := safe_get row (("stVoornaam").data)
  let last_name := safe_get row (("stNaam").data)
  let email := safe_get row (("stEmail").data)
  let phone := pyOr (safe_get row (("stTelefoonmobiel").data))
    (safe_get row (("stTelefoonvast").data))
  let city := safe_get row (("stWoonplaats").data)
  let notes := safe_get row (("stOpmerkingen").data)
  let fullName := pyStrip (first_name ++ ' ' :: last_name)
  let student : Student :=
    { id := student_id
      firstName := first_name
      lastName := last_name
      fullName := fullName
      email := optNan email
      phone := optNan phone
      city := optNan city
      notes := optNan notes
      instrument := ("drums").data }
  (student, [1, 2].filterMap (lessonSlot today student_id fullName email (optNan notes) row))

/-- The per-row loop shared by all three converters, modelling
`for row_num, row in enumerate(reader, 1): try: ... except: warn and
continue`.  Returns the successful records in row order together with the row
numbers of the rows whose processing raised (each of which is logged as a
warning naming that row number). -/
def convertLoop (body : Nat → Row → Except ε α) : Nat → List Row → List α × List Nat
  | _, [] => ([], [])
  | n, row :: rows =>
    let rest := convertLoop body (n + 1) rows
    match body n row with
    | Except.ok a => (a :: rest.1, rest.2)
    | Except.error _ => (rest.1, n :: rest.2)

/-- The songs converter on parsed rows.  No statement of the loop body can
raise in the model (every helper is total), so the body always succeeds; the
`Except` layer records where the Python `try` sits. -/
def convert_songs_rows (rows : List Row) : List Song :=
  (convertLoop (fun n row => (Except.ok (songRow n row) : Except Unit Song)) 1 rows).1

/-- The notation converter on parsed rows. -/
def convert_notatie_rows (rows : List Row) : List Lesson :=
  (convertLoop (fun n row => (Except.ok (notatieRow n row) : Except Unit Lesson)) 1 rows).1

/-- The students converter on parsed rows: students in row order, schedule
entries concatenated in row order. -/
def convert_students_rows (today : Nat) (rows : List Row) :
    List Student × List ScheduleEntry :=
  let res := (convertLoop
    (fun n row => (Except.ok (studentRowF today n row) : Except Unit _)) 1 rows).1
  (res.map Prod.fst, res.flatMap Prod.snd)

/-- Strict UTF-8 decoding of a byte sequence (`bytes.decode('utf-8')`):
rejects stray continuation bytes, overlong forms, surrogates and code points
above U+10FFFF; `none` models `UnicodeDecodeError`. -/
def utf8Decode : List Nat → Option Str
  | [] => some []
  | b :: bs =>
    if b < 0x80 then (utf8Decode bs).map (Char.ofNat b :: ·)
    else if b < 0xC2 then none
    else if b < 0xE0 then
      match bs with
      | b2 :: bs2 =>
        if 0x80 ≤ b2 ∧ b2 < 0xC0 then
          (utf8Decode bs2).map (Char.ofNat ((b - 0xC0) * 64 + (b2 - 0x80)) :: ·)
        else none
      | [] => none
    else if b < 0xF0 then
      match bs with
      | b2 :: b3 :: bs3 =>
        let lo2 := if b = 0xE0 then 0xA0 else 0x80
        let hi2 := if b = 0xED then 0xA0 else 0xC0
        if lo2 ≤ b2 ∧ b2 < hi2 ∧ 0x80 ≤ b3 ∧ b3 < 0xC0 then
          (utf8Decode bs3).map
            (Char.ofNat ((b - 0xE0) * 4096 + (b2 - 0x80) * 64 + (b3 - 0x80)) :: ·)
        else none
      | _ => none
    else if b < 0xF5 then
      match bs with
      | b2 :: b3 :: b4 :: bs4 =>
        let lo2 := if b = 0xF0 then 0x90 else 0x80
        let hi2 := if b = 0xF4 then 0x90 else 0xC0
        if lo2 ≤ b2 ∧ b2 < hi2 ∧ 0x80 ≤ b3 ∧ b3 < 0xC0 ∧ 0x80 ≤ b4 ∧ b4 < 0xC0 then
          (utf8Decode bs4).map
            (Char.ofNat ((b - 0xF0) * 262144 + (b2 - 0x80) * 4096
              + (b3 - 0x80) * 64 + (b4 - 0x80)) :: ·)
        else none
      | _ => none
    else none

/-- Latin-1 decoding (`bytes.decode('latin-1')`): every byte maps to the code
point of its value; it never fails. -/
def latin1Decode (bs : List Nat) : Str := bs.map Char.ofNat

/-- The cp1252 value of bytes 0x80–0x9F (the other bytes map to themselves);
`none` for the five unassigned bytes, on which `decode('cp1252')` raises. -/
def cp1252Table (b : Nat) : Option Nat :=
  if b = 0x80 then some 0x20AC else if b = 0x82 then some 0x201A
  else if b = 0x83 then some 0x0192 else if b = 0x84 then some 0x201E
  else if b = 0x85 then some 0x2026 else if b = 0x86 then some 0x2020
  else if b = 0x87 then some 0x2021 else if b = 0x88 then some 0x02C6
  else if b = 0x89 then some 0x2030 else if b = 0x8A then some 0x0160
  else if b = 0x8B then some 0x2039 else if b = 0x8C then some 0x0152
  else if b = 0x8E then some 0x017D else if b = 0x91 then some 0x2018
  else if b = 0x92 then some 0x2019 else if b = 0x93 then some 0x201C
  else if b = 0x94 then some 0x201D else if b = 0x95 then some 0x2022
  else if b = 0x96 then some 0x2013 else if b = 0x97 then some 0x2014
  else if b = 0x98 then some 0x02DC else if b = 0x99 then some 0x2122
  else if b = 0x9A then some 0x0161 else if b = 0x9B then some 0x203A
  else if b = 0x9C then some 0x0153 else if b = 0x9E then some 0x017E
  else if b = 0x9F then some 0x0178
  else if b = 0x81 ∨ b = 0x8D ∨ b = 0x8F ∨ b = 0x90 ∨ b = 0x9D then none
  else some b

/-- cp1252 decoding (`bytes.decode('cp1252')`). -/
def cp1252Decode (bs : List Nat) : Option Str :=
  (bs.mapM cp1252Table).map (List.map Char.ofNat)

/-- The `encodings = ['utf-8', 'latin-1', 'cp1252', 'iso-8859-1']` list as
decoders (iso-8859-1 decodes like latin-1 and also never fails). -/
def encodings : List (List Nat → Option Str) :=
  [utf8Decode, fun bs => some (latin1Decode bs), cp1252Decode,
    fun bs => some (latin1Decode bs)]

/-- The first decoder of a list that succeeds on the input, modelling the
`for encoding in encodings: try: read; break; except UnicodeDecodeError:
continue` loop. -/
def firstSuccess : List (List Nat → Option Str) → List Nat → Option Str
  | [], _ => none
  | d :: ds, bs =>
    match d bs with
    | some t => some t
    | none => firstSuccess ds bs

/-- Text obtained from the input file: `none` when the file could not be
opened (the file is `none`) or no encoding succeeded; both raise in Python and
are caught by the converters' outer handler. -/
def readCsvData (file : Option (List Nat)) : Option Str :=
  match file with
  | none => none
  | some bs => firstSuccess encodings bs

/-- States of the `csv` module's field parser (default dialect). -/
inductive CsvState
  | fieldStart
  | inField
  | inQuotes
  | afterQuote
deriving DecidableEq

/-- Consume the `\n` of a `\r\n` pair after the `\r` has been seen. -/
def dropLF : Str → Str
  | '\n' :: rest => rest
  | rest => rest

/-- Character-level parser of the `csv` module's default dialect (delimiter
`,`, quote `"`, doubled quotes inside quoted fields, `\r\n`/`\n`/`\r` as row
terminators, newlines kept inside quoted fields, a blank line giving an empty
record).  Accumulators hold the current field (reversed), the completed fields
of the current record (reversed) and the completed records (reversed). -/
def csvGo (st : CsvState) (field : Str) (fields : List Str)
    (records : List (List Str)) (input : Str) : List (List Str) :=
  match input with
  | [] =>
    if st = CsvState.fieldStart ∧ fields = [] ∧ field = [] then records.reverse
    else ((field.reverse :: fields).reverse :: records).reverse
  | c :: rest =>
    match st with
    | CsvState.fieldStart =>
      if c = '"' then csvGo CsvState.inQuotes field fields records rest
      else if c = ',' then csvGo CsvState.fieldStart [] ([] :: fields) records rest
      else if c = '\n' then
        csvGo CsvState.fieldStart [] []
          ((if fields = [] ∧ field = [] then [] else (field.reverse :: fields).reverse) :: records) rest
      else if c = '\r' then
        csvGo CsvState.fieldStart [] []
          ((if fields = [] ∧ field = [] then [] else (field.reverse :: fields).reverse) :: records) (dropLF rest)
      else csvGo CsvState.inField (c :: field) fields records rest
    | CsvState.inField =>
      if c = ',' then csvGo CsvState.fieldStart [] (field.reverse :: fields) records rest
      else if c = '\n' then
        csvGo CsvState.fieldStart [] [] ((field.reverse :: fields).reverse :: records) rest
      else if c = '\r' then
        csvGo CsvState.fieldStart [] [] ((field.reverse :: fields).reverse :: records) (dropLF rest)
      else csvGo CsvState.inField (c :: field) fields records rest
    | CsvState.inQuotes =>
      if c = '"' then csvGo CsvState.afterQuote field fields records rest
      else csvGo CsvState.inQuotes (c :: field) fields records rest
    | CsvState.afterQuote =>
      if c = '"' then csvGo CsvState.inQuotes ('"' :: field) fields records rest
      else if c = ',' then csvGo CsvState.fieldStart [] (field.reverse :: fields) records rest
      else if c = '\n' then
        csvGo CsvState.fieldStart [] [] ((field.reverse :: fields).reverse :: records) rest
      else if c = '\r' then
        csvGo CsvState.fieldStart [] [] ((field.reverse :: fields).reverse :: records) (dropLF rest)
      else csvGo CsvState.inField (c :: field) fields records rest
termination_by input.length
decreasing_by
  all_goals simp_arith
  all_goals (unfold dropLF; split <;> simp_arith)

/-- All records of a CSV text. -/
def csvRecords (text : Str) : List (List Str) :=
  csvGo CsvState.fieldStart [] [] [] text

/-- Rows as produced by `csv.DictReader(StringIO(csv_data))`: the first record
gives the field names, blank records are skipped, and each data record is
zipped with the field names (extra cells go to the `None` rest key, which
no converter ever reads; missing cells give `None` values, which `safe_get`
treats like missing keys). -/
def dictRows (text : Str) : List Row :=
  match csvRecords text with
  | [] => []
  | header :: rest => (rest.filter (fun r => r ≠ [])).map (fun r => header.zip r)

/-- Translation of `convert_songs_csv_to_json`, from the raw file (`none`
when opening the file raises).  Any failure to obtain text is caught by the
outer `except`, which logs the error and leaves `songs = []`. -/
def convert_songs_csv_to_json (file : Option (List Nat)) : List Song :=
  match readCsvData file with
  | none => []
  | some text => convert_songs_rows (dictRows text)

/-- Translation of `convert_notatie_csv_to_json`, from the raw file. -/
def convert_notatie_csv_to_json (file : Option (List Nat)) : List Lesson :=
  match readCsvData file with
  | none => []
  | some text => convert_notatie_rows (dictRows text)

/-- Translation of `convert_students_csv_to_json`, from the raw file. -/
def convert_students_csv_to_json (today : Nat) (file : Option (List Nat)) :
    List Student × List ScheduleEntry :=
  match readCsvData file with
  | none => ([], [])
  | some text => convert_students_rows today (dictRows text)

/-- Claim C1's description of `normalize_groovescribe`, formalized from the
claim's words: an `<iframe>` input is canonicalized exactly when the `src` URL
found by the regex carries a (nonempty) query string introduced by `?`; a
string starting with `http` is canonicalized when it carries a query string or,
failing that, a `TimeSig=` segment; bare `?TimeSig=`/`TimeSig=` queries are
canonicalized; empty and `nan` inputs give the empty string; everything else is
returned with whitespace trimmed. -/
def groovescribeClaimed (input_str : Str) : Str :=
  if input_str = [] ∨ pyLower (pyStrip input_str) = ("nan").data then []
  else
    let s := pyStrip input_str
    if ("<iframe").data.isPrefixOf s then
      match findSrc s with
      | some src_url =>
        match afterChar '?' src_url with
        | some query => if query ≠ [] then canonIframe query else s
        | none => s
      | none => s
    else if ("http").data.isPrefixOf s then
      let query := extractQuery s
      if query ≠ [] then canonIframe query else s
    else if ("?TimeSig=").data.isPrefixOf s then canonIframe (s.drop 1)
    else if ("TimeSig=").data.isPrefixOf s then canonIframe s
    else s

/-- The amended claim C1: same as `groovescribeClaimed` except that an
`<iframe>` whose `src` URL has no `?` is also canonicalized when the URL
contains a `TimeSig=` segment (the code's `extractQuery` fallback applies to
the iframe case too). -/
def groovescribeAmended (input_str : Str) : Str :=
  if input_str = [] ∨ pyLower (pyStrip input_str) = ("nan").data then []
  else
    let s := pyStrip input_str
    if ("<iframe").data.isPrefixOf s then
      match findSrc s with
      | some src_url =>
        let query := extractQuery src_url
        if query ≠ [] then canonIframe query else s
      | none => s
    else if ("http").data.isPrefixOf s then
      let query := extractQuery s
      if query ≠ [] then canonIframe query else s
    else if ("?TimeSig=").data.isPrefixOf s then canonIframe (s.drop 1)
    else if ("TimeSig=").data.isPrefixOf s then canonIframe s
    else s

/-- The query that `ngCore` would embed into a canonical iframe, `none` when
the input falls through unchanged. -/
def ngQueryCore (s : Str) : Option Str :=
  if ("<iframe").data.isPrefixOf s then
    match findSrc s with
    | some src_url =>
      let query := extractQuery src_url
      if query ≠ [] then some query else none
    | none => none
  else if ("http").data.isPrefixOf s then
    let query := extractQuery s
    if query ≠ [] then some query else none
  else if ("?TimeSig=").data.isPrefixOf s then some (s.drop 1)
  else if ("TimeSig=").data.isPrefixOf s then some s
  else none

/-- The query that `normalize_groovescribe` embeds into a canonical iframe for
the given input, `none` when the result is the empty string or the trimmed
input. -/
def ngQuery (input_str : Str) : Option Str :=
  if input_str = [] ∨ pyLower (pyStrip input_str) = ("nan").data then none
  else ngQueryCore (pyStrip input_str)

/-- A schedule entry with its date-dependent `ical.DTSTART` field blanked. -/
def eraseDtstart (e : ScheduleEntry) : ScheduleEntry :=
  { e with ical := { e.ical with dtstart := [] } }

/-- A student row with a Monday 10:00 lesson in slot 1 and no duration. -/
def rowMa : Row :=
  [((("stLesdag1").data), (("ma").data)), ((("stLestijd1").data), (("10:00").data))]

/-- A student row whose lesson time is out of clock range. -/
def rowHigh : Row :=
  [((("stLesdag1").data), (("ma").data)), ((("stLestijd1").data), (("25.99").data))]

/-- A loop body used to exhibit the skip-and-log behaviour on a failing row. -/
def exBody : Nat → Row → Except Unit Nat :=
  fun k _ => if k = 1 then Except.error () else Except.ok k

/-- The schedule entry produced from `rowMa` when the current day is the epoch
(1970-01-01, a Thursday, so the next Monday is 1970-01-05). -/
def entryMa : ScheduleEntry :=
  { studentId := ("1").data
    studentName := []
    email := []
    dayOfWeek := ("MO").data
    startTime := ("10:00").data
    durationMin := 30
    timezone := ("Europe/Amsterdam").data
    frequency := ("WEEKLY").data
    ical :=
      { dtstart := ("19700105T100000").data
        tzid := ("Europe/Amsterdam").data
        rrule := ("FREQ=WEEKLY;BYDAY=MO;BYHOUR=10;BYMINUTE=0;BYSECOND=0").data }
    notes := none }

/-! ### General lemmas about the converter loop -/

theorem convertLoop_append {ε α : Type} (body : Nat → Row → Except ε α)
    (a b : List Row) (n : Nat) :
    convertLoop body n (a ++ b) =
      ((convertLoop body n a).1 ++ (convertLoop body (n + a.length) b).1,
       (convertLoop body n a).2 ++ (convertLoop body (n + a.length) b).2) := by
  induction a generalizing n with
  | nil => simp [convertLoop]
  | cons r rs ih =>
    have harith : n + 1 + rs.length = n + (rs.length + 1) := by omega
    cases hb : body n r with
    | ok a => simp [convertLoop, hb, ih (n + 1), harith]
    | error e => simp [convertLoop, hb, ih (n + 1), harith]

theorem convertLoop_ok {ε α : Type} (g : Nat → Row → α) (n : Nat) (rows : List Row) :
    convertLoop (fun k r => (Except.ok (g k r) : Except ε α)) n rows =
      ((List.enumFrom n rows).map (fun p => g p.1 p.2), []) := by
  induction rows generalizing n with
  | nil => simp [convertLoop]
  | cons r rs ih => simp [convertLoop, List.enumFrom, ih]

/-- C3: in every converter, a row whose processing raises contributes no
record, a warning naming its row number is recorded, all subsequent rows are
still processed (with their original row numbers), and the records of earlier
rows are unchanged.  The statement is about `convertLoop`, the loop shared by
the three converters; in this embedding every actual row body is total, so the
failing body is universally quantified. -/
theorem c3_per_row_error_skipping {ε α : Type} (body : Nat → Row → Except ε α)
    (pre : List Row) (bad : Row) (post : List Row)
    (h : ∃ e, body (pre.length + 1) bad = Except.error e) :
    convertLoop body 1 (pre ++ bad :: post) =
      ((convertLoop body 1 pre).1 ++ (convertLoop body (pre.length + 2) post).1,
       (convertLoop body 1 pre).2 ++ (pre.length + 1)
         :: (convertLoop body (pre.length + 2) post).2) := by
  obtain ⟨e, he⟩ := h
  have h1 : 1 + pre.length = pre.length + 1 := by omega
  have h2 : pre.length + 1 + 1 = pre.length + 2 := by omega
  rw [convertLoop_append, convertLoop, h1, he, h2]

theorem c3_per_row_error_skipping_witness :
    convertLoop exBody 1 ([] ++ ([] : Row) :: [([] : Row)]) = ([2], [1]) := by
  have h := c3_per_row_error_skipping exBody [] [] [([] : Row)] ⟨(), rfl⟩
  rw [h]
  rfl

theorem flatMap_map_snd {α β γ : Type} (g : α → β × List γ) (l : List α) :
    (l.map g).flatMap Prod.snd = l.flatMap (fun p => (g p).2) := by
  induction l with
  | nil => rfl
  | cons x xs ih => simp [List.flatMap_cons, ih]

/-- C7: each converter makes a single ordered pass: the output records are
exactly the per-row images of the rows paired with their 1-based row numbers,
in input order — so each record is derived from its own source row only, and
at most one song, lesson and student record arises per row. -/
theorem c7_single_pass_order (rows : List Row) (today : Nat) :
    convert_songs_rows rows = (List.enumFrom 1 rows).map (fun p => songRow p.1 p.2)
    ∧ convert_notatie_rows rows = (List.enumFrom 1 rows).map (fun p => notatieRow p.1 p.2)
    ∧ (convert_students_rows today rows).1
        = (List.enumFrom 1 rows).map (fun p => (studentRowF today p.1 p.2).1)
    ∧ (convert_students_rows today rows).2
        = (List.enumFrom 1 rows).flatMap (fun p => (studentRowF today p.1 p.2).2) := by
  refine ⟨?_, ?_, ?_, ?_⟩
  · rw [convert_songs_rows, convertLoop_ok]
  · rw [convert_notatie_rows, convertLoop_ok]
  · simp [convert_students_rows, convertLoop_ok]
  · simp [convert_students_rows, convertLoop_ok, flatMap_map_snd]

/-- C5: the converters try utf-8 first and fall back to latin-1 (which always
succeeds, so cp1252 and iso-8859-1 are never reached but stand next in the
list), and a file that cannot be read at all yields the empty result of each
converter. -/
theorem c5_encoding_fallback (bs : List Nat) :
    ((utf8Decode bs).isSome → readCsvData (some bs) = utf8Decode bs)
    ∧ (utf8Decode bs = none → readCsvData (some bs) = some (latin1Decode bs))
    ∧ convert_songs_csv_to_json none = []
    ∧ convert_notatie_csv_to_json none = []
    ∧ (∀ today, convert_students_csv_to_json today none = ([], [])) := by
  refine ⟨?_, ?_, rfl, rfl, fun _ => rfl⟩
  · intro h
    rw [readCsvData, encodings, firstSuccess]
    cases hu : utf8Decode bs with
    | none => rw [hu] at h; simp at h
    | some t => rfl
  · intro h
    rw [readCsvData, encodings, firstSuccess, h, firstSuccess]

theorem c5_encoding_fallback_witness :
    ((utf8Decode [104]).isSome ∧ readCsvData (some [104]) = utf8Decode [104])
    ∧ (utf8Decode [255] = none
        ∧ readCsvData (some [255]) = some (latin1Decode [255])) :=
  ⟨⟨by decide, (c5_encoding_fallback [104]).1 (by decide)⟩,
   ⟨by decide, (c5_encoding_fallback [255]).2.1 (by decide)⟩⟩

/-! ### Lemmas about string scanning and `normalize_groovescribe` -/

theorem takeWhile_append_all {p : Char → Bool} {a : Str} (h : ∀ c ∈ a, p c = true)
    (l : Str) : (a ++ l).takeWhile p = a ++ l.takeWhile p := by
  induction a with
  | nil => rfl
  | cons x xs ih =>
    have hx : p x = true := h x (List.mem_cons_self x xs)
    simp only [List.cons_append, List.takeWhile_cons, hx, if_true]
    rw [ih (fun c hc => h c (List.mem_cons_of_mem x hc))]

theorem dropWhile_append_all {p : Char → Bool} {a : Str} (h : ∀ c ∈ a, p c = true)
    (l : Str) : (a ++ l).dropWhile p = l.dropWhile p := by
  induction a with
  | nil => rfl
  | cons x xs ih =>
    have hx : p x = true := h x (List.mem_cons_self x xs)
    simp only [List.cons_append, List.dropWhile_cons, hx, if_true]
    exact ih (fun c hc => h c (List.mem_cons_of_mem x hc))

theorem afterChar_append_none {x : Char} {a : Str} (h : ∀ c ∈ a, c ≠ x) (l : Str) :
    afterChar x (a ++ l) = afterChar x l := by
  induction a with
  | nil => rfl
  | cons y ys ih =>
    have hy : y ≠ x := h y (List.mem_cons_self y ys)
    simp only [List.cons_append, afterChar, if_neg hy]
    exact ih (fun c hc => h c (List.mem_cons_of_mem y hc))

theorem srcHere_not_s {c : Char} (h : ¬c.toLower = 's') (l : Str) :
    srcHere (c :: l) = none := by
  rcases l with _ | ⟨c2, _ | ⟨c3, _ | ⟨c4, _ | ⟨c5, rest⟩⟩⟩⟩
  · rfl
  · rfl
  · rfl
  · rfl
  · simp only [srcHere]
    rw [if_neg]
    intro hcond
    exact h hcond.1

theorem findSrc_cons_of_none {c : Char} {l : Str} (h : srcHere (c :: l) = none) :
    findSrc (c :: l) = findSrc l := by
  simp only [findSrc, h]

theorem findSrc_append_no_s {a : Str} (h : ∀ c ∈ a, ¬c.toLower = 's') (l : Str) :
    findSrc (a ++ l) = findSrc l := by
  induction a with
  | nil => rfl
  | cons x xs ih =>
    have hx := h x (List.mem_cons_self x xs)
    rw [List.cons_append, findSrc_cons_of_none (srcHere_not_s hx _)]
    exact ih (fun c hc => h c (List.mem_cons_of_mem x hc))

theorem srcHere_cons (c1 c2 c3 c4 c5 : Char) (rest : Str) :
    srcHere (c1 :: c2 :: c3 :: c4 :: c5 :: rest)
      = if c1.toLower = 's' ∧ c2.toLower = 'r' ∧ c3.toLower = 'c' ∧ c4 = '=' ∧
            isQuoteC c5 then
          (if rest.takeWhile (fun c => !isQuoteC c) ≠ []
              ∧ rest.dropWhile (fun c => !isQuoteC c) ≠ [] then
            some (rest.takeWhile (fun c => !isQuoteC c))
          else none)
        else none := rfl

theorem findSrc_canon (q : Str) (hq : ∀ c ∈ q, isQuoteC c = false) :
    findSrc (canonIframe q) =
      some ((("https://teacher.musicdott.com/groovescribe/GrooveEmbed.html?").data) ++ q) := by
  have hdecomp : canonIframe q =
      ("<iframe width=\"100%\" height=\"240\" ").data
        ++ ('s' :: 'r' :: 'c' :: '=' :: quoteD ::
          ((("https://teacher.musicdott.com/groovescribe/GrooveEmbed.html?").data)
            ++ (q ++ quoteD :: ((" frameborder=\"0\"></iframe>").data)))) := by
    simp [canonIframe, quoteD, List.append_assoc]
  rw [hdecomp, findSrc_append_no_s (by decide)]
  have hqb : ∀ c ∈ q, (fun c => !isQuoteC c) c = true := by
    intro c hc
    simp [hq c hc]
  have hrun :
      ((("https://teacher.musicdott.com/groovescribe/GrooveEmbed.html?").data)
        ++ (q ++ quoteD :: ((" frameborder=\"0\"></iframe>").data))).takeWhile
          (fun c => !isQuoteC c)
      = (("https://teacher.musicdott.com/groovescribe/GrooveEmbed.html?").data) ++ q := by
    rw [takeWhile_append_all (by decide), takeWhile_append_all hqb, List.takeWhile_cons]
    simp [isQuoteC, quoteD]
  have hafter :
      ((("https://teacher.musicdott.com/groovescribe/GrooveEmbed.html?").data)
        ++ (q ++ quoteD :: ((" frameborder=\"0\"></iframe>").data))).dropWhile
          (fun c => !isQuoteC c)
      = quoteD :: ((" frameborder=\"0\"></iframe>").data) := by
    rw [dropWhile_append_all (by decide), dropWhile_append_all hqb, List.dropWhile_cons]
    simp [isQuoteC, quoteD]
  have hsrc : srcHere ('s' :: 'r' :: 'c' :: '=' :: quoteD ::
      ((("https://teacher.musicdott.com/groovescribe/GrooveEmbed.html?").data)
        ++ (q ++ quoteD :: ((" frameborder=\"0\"></iframe>").data))))
      = some ((("https://teacher.musicdott.com/groovescribe/GrooveEmbed.html?").data) ++ q) := by
    rw [srcHere_cons, if_pos (by decide), hrun, hafter]
    rw [if_pos ⟨by simp, by simp⟩]
  simp only [findSrc]
  rw [hsrc]

theorem extractQuery_canonU (q : Str) :
    extractQuery
      ((("https://teacher.musicdott.com/groovescribe/GrooveEmbed.html?").data) ++ q)
      = q := by
  have hd : (("https://teacher.musicdott.com/groovescribe/GrooveEmbed.html?").data) ++ q
      = ("https://teacher.musicdott.com/groovescribe/GrooveEmbed.html").data ++ ('?' :: q) := by
    simp [List.append_assoc]
  rw [extractQuery, hd, afterChar_append_none (by decide)]
  simp [afterChar]

theorem pyStrip_canon (q : Str) : pyStrip (canonIframe q) = canonIframe q := by
  obtain ⟨t0, ht0⟩ : ∃ t, canonIframe q = '<' :: t := ⟨_, rfl⟩
  have h1 : (canonIframe q).dropWhile Char.isWhitespace = canonIframe q := by
    rw [ht0, List.dropWhile_cons]
    simp
  obtain ⟨t1, ht1⟩ : ∃ t, (("\" frameborder=\"0\"></iframe>").data).reverse = '>' :: t :=
    ⟨_, rfl⟩
  have h2 : (canonIframe q).reverse.dropWhile Char.isWhitespace = (canonIframe q).reverse := by
    rw [canonIframe, List.reverse_append, ht1, List.cons_append, List.dropWhile_cons]
    simp
  rw [pyStrip, h1, h2, List.reverse_reverse]

theorem ngCore_canon (q : Str) (hqne : q ≠ []) (hq : ∀ c ∈ q, isQuoteC c = false) :
    ngCore (canonIframe q) = canonIframe q := by
  have hpre : ("<iframe").data.isPrefixOf (canonIframe q) = true := rfl
  rw [ngCore, if_pos hpre, findSrc_canon q hq]
  show (if extractQuery
        ((("https://teacher.musicdott.com/groovescribe/GrooveEmbed.html?").data) ++ q) ≠ []
      then canonIframe (extractQuery
        ((("https://teacher.musicdott.com/groovescribe/GrooveEmbed.html?").data) ++ q))
      else canonIframe q) = canonIframe q
  rw [extractQuery_canonU, if_pos hqne]

theorem ng_canon (q : Str) (hqne : q ≠ []) (hq : ∀ c ∈ q, isQuoteC c = false) :
    normalize_groovescribe (canonIframe q) = canonIframe q := by
  obtain ⟨t0, ht0⟩ : ∃ t, canonIframe q = '<' :: t := ⟨_, rfl⟩
  have hne : canonIframe q ≠ [] := by rw [ht0]; exact List.cons_ne_nil _ _
  have hnan : ¬pyLower (pyStrip (canonIframe q)) = ("nan").data := by
    rw [pyStrip_canon, ht0]
    intro h
    have hh := congrArg List.head? h
    simp [pyLower] at hh
  rw [normalize_groovescribe, if_neg (not_or.mpr ⟨hne, hnan⟩), pyStrip_canon,
    ngCore_canon q hqne hq]

theorem dropWhile_head_false {p : Char → Bool} {l t : Str} {c : Char}
    (h : l.dropWhile p = c :: t) : p c = false := by
  induction l with
  | nil => cases h
  | cons x xs ih =>
    rw [List.dropWhile_cons] at h
    by_cases hx : p x = true
    · rw [if_pos hx] at h
      exact ih h
    · rw [if_neg hx] at h
      cases h
      exact Bool.eq_false_iff.mpr hx

theorem dropWhile_dropWhile (p : Char → Bool) (l : Str) :
    (l.dropWhile p).dropWhile p = l.dropWhile p := by
  cases hd : l.dropWhile p with
  | nil => rfl
  | cons c t =>
    rw [List.dropWhile_cons, dropWhile_head_false hd]
    simp

theorem pyStrip_idem (s : Str) : pyStrip (pyStrip s) = pyStrip s := by
  have hps : pyStrip s
      = ((s.dropWhile Char.isWhitespace).reverse.dropWhile Char.isWhitespace).reverse := rfl
  have hBrev :
      (((s.dropWhile Char.isWhitespace).reverse.dropWhile Char.isWhitespace).reverse).dropWhile
        Char.isWhitespace
      = ((s.dropWhile Char.isWhitespace).reverse.dropWhile Char.isWhitespace).reverse := by
    cases hB : (s.dropWhile Char.isWhitespace).reverse.dropWhile Char.isWhitespace with
    | nil => rfl
    | cons b B2 =>
      have hsuf : (b :: B2) <:+ (s.dropWhile Char.isWhitespace).reverse := by
        rw [← hB]
        exact List.dropWhile_suffix _
      have hpre : (b :: B2).reverse <+: s.dropWhile Char.isWhitespace := by
        have := hsuf.reverse
        rwa [List.reverse_reverse] at this
      obtain ⟨r, hr⟩ := hpre
      cases hA : s.dropWhile Char.isWhitespace with
      | nil =>
        rw [hA] at hr
        exact absurd hr (by simp)
      | cons a A2 =>
        have ha : Char.isWhitespace a = false := dropWhile_head_false hA
        rw [hA] at hr
        cases hBr : (b :: B2).reverse with
        | nil => exact absurd (congrArg List.length hBr) (by simp)
        | cons c t =>
          rw [hBr] at hr
          have hca : c = a := by
            have := congrArg List.head? hr
            simpa using this
          rw [List.dropWhile_cons, hca, ha]
          simp
  rw [hps, pyStrip, hBrev, List.reverse_reverse, dropWhile_dropWhile]

theorem ngCore_cases (t : Str) :
    (∃ q, ngQueryCore t = some q ∧ q ≠ [] ∧ ngCore t = canonIframe q)
    ∨ (ngQueryCore t = none ∧ ngCore t = t) := by
  by_cases h1 : ("<iframe").data.isPrefixOf t = true
  · cases hf : findSrc t with
    | some u =>
      by_cases hqe : extractQuery u = []
      · right
        constructor <;> simp [ngCore, ngQueryCore, h1, hf, hqe]
      · left
        exact ⟨extractQuery u, by simp [ngQueryCore, h1, hf, hqe], hqe,
          by simp [ngCore, h1, hf, hqe]⟩
    | none =>
      right
      constructor <;> simp [ngCore, ngQueryCore, h1, hf]
  · by_cases h2 : ("http").data.isPrefixOf t = true
    · by_cases hqe : extractQuery t = []
      · right
        constructor <;> simp [ngCore, ngQueryCore, h1, h2, hqe]
      · left
        exact ⟨extractQuery t, by simp [ngQueryCore, h1, h2, hqe], hqe,
          by simp [ngCore, h1, h2, hqe]⟩
    · by_cases h3 : ("?TimeSig=").data.isPrefixOf t = true
      · left
        refine ⟨t.drop 1, by simp [ngQueryCore, h1, h2, h3], ?_, by simp [ngCore, h1, h2, h3]⟩
        have hpre : ("?TimeSig=").data <+: t := List.isPrefixOf_iff_prefix.mp h3
        obtain ⟨r, hr⟩ := hpre
        rw [← hr]
        simp
      · by_cases h4 : ("TimeSig=").data.isPrefixOf t = true
        · left
          refine ⟨t, by simp [ngQueryCore, h1, h2, h3, h4], ?_,
            by simp [ngCore, h1, h2, h3, h4]⟩
          have hpre : ("TimeSig=").data <+: t := List.isPrefixOf_iff_prefix.mp h4
          obtain ⟨r, hr⟩ := hpre
          rw [← hr]
          simp
        · right
          constructor <;> simp [ngCore, ngQueryCore, h1, h2, h3, h4]

theorem ngCore_neutral {t : Str} (h : ngQueryCore t = none) : ngCore t = t := by
  rcases ngCore_cases t with ⟨q, hq, _, _⟩ | ⟨_, h2⟩
  · rw [h] at hq
    cases hq
  · exact h2

/-- C8 (amended): `normalize_groovescribe` is idempotent on every input whose
extracted query (if the input is canonicalized at all) contains no quote
character; in particular each canonical iframe it produces from a quote-free
query is mapped to itself.  Idempotence fails in general: when the query
carries a quote, the second pass truncates it at the quote. -/
theorem c8_idempotent_quote_free (s : Str)
    (h : ∀ q, ngQuery s = some q → ∀ c ∈ q, isQuoteC c = false) :
    normalize_groovescribe (normalize_groovescribe s) = normalize_groovescribe s := by
  by_cases h0 : s = [] ∨ pyLower (pyStrip s) = ("nan").data
  · have hs : normalize_groovescribe s = [] := by
      rw [normalize_groovescribe, if_pos h0]
    rw [hs]
    rfl
  · have hng : normalize_groovescribe s = ngCore (pyStrip s) := by
      rw [normalize_groovescribe, if_neg h0]
    have hq : ngQuery s = ngQueryCore (pyStrip s) := by
      rw [ngQuery, if_neg h0]
    rcases ngCore_cases (pyStrip s) with ⟨q, hqc, hqne, hcore⟩ | ⟨hnone, hcore⟩
    · have hqf := h q (by rw [hq, hqc])
      rw [hng, hcore, ng_canon q hqne hqf]
    · rw [hng, hcore]
      by_cases ht : pyStrip s = []
      · rw [ht, normalize_groovescribe]
        simp
      · have hnn : ¬(pyStrip s = [] ∨ pyLower (pyStrip (pyStrip s)) = ("nan").data) := by
          rw [pyStrip_idem]
          push_neg
          exact ⟨ht, fun hc => h0 (Or.inr hc)⟩
        rw [normalize_groovescribe, if_neg hnn, pyStrip_idem, ngCore_neutral hnone]

theorem c8_counterexample :
    normalize_groovescribe (normalize_groovescribe (("http://x?a=\"b\"").data))
      ≠ normalize_groovescribe (("http://x?a=\"b\"").data) := by decide

theorem c8_idempotent_quote_free_witness :
    normalize_groovescribe (normalize_groovescribe (("TimeSig=4F").data))
      = normalize_groovescribe (("TimeSig=4F").data) :=
  c8_idempotent_quote_free _ (by
    intro q hq
    have h1 : ngQuery (("TimeSig=4F").data) = some (("TimeSig=4F").data) := by decide
    rw [h1] at hq
    cases hq
    decide)

/-- C1 (amended): `normalize_groovescribe` agrees everywhere with the claimed
case analysis once the iframe case is allowed to fall back to a `TimeSig=`
segment when the `src` URL carries no `?` (and a query string is read as a
nonempty one, and "full http(s) URL" as any string starting with `http`):
recognized Groovescribe variants become the canonical iframe, empty and `nan`
inputs give the empty string, and everything else is returned trimmed. -/
theorem c1_normalize_canonical (s : Str) :
    normalize_groovescribe s = groovescribeAmended s := rfl

theorem c1_counterexample :
    normalize_groovescribe (("<iframe src=\"x.htmlTimeSig=44\"></iframe>").data)
      ≠ groovescribeClaimed (("<iframe src=\"x.htmlTimeSig=44\"></iframe>").data) := by
  decide

/-! ### Determinism up to DTSTART (claim C2) -/

theorem flatMap_congr {α β : Type} {l : List α} {f g : α → List β}
    (h : ∀ a ∈ l, f a = g a) : l.flatMap f = l.flatMap g := by
  induction l with
  | nil => rfl
  | cons x xs ih =>
    rw [List.flatMap_cons, List.flatMap_cons, h x (List.mem_cons_self x xs),
      ih (fun a ha => h a (List.mem_cons_of_mem x ha))]

theorem filterMap_map_congr {α β γ : Type} (m : β → γ) {f g : α → Option β}
    (h : ∀ a, (f a).map m = (g a).map m) (l : List α) :
    (l.filterMap f).map m = (l.filterMap g).map m := by
  induction l with
  | nil => rfl
  | cons x xs ih =>
    have hx := h x
    rw [List.filterMap_cons, List.filterMap_cons]
    cases hf : f x with
    | none =>
      cases hg : g x with
      | none => exact ih
      | some b =>
        rw [hf, hg] at hx
        simp at hx
    | some a =>
      cases hg : g x with
      | none =>
        rw [hf, hg] at hx
        simp at hx
      | some b =>
        rw [hf, hg] at hx
        simp at hx
        simp [hx, ih]

theorem lessonSlot_eraseDtstart (d1 d2 : Nat) (sid nm em : Str) (sn : Option Str)
    (row : Row) (i : Nat) :
    (lessonSlot d1 sid nm em sn row i).map eraseDtstart
      = (lessonSlot d2 sid nm em sn row i).map eraseDtstart := by
  simp only [lessonSlot]
  split
  case isTrue h => rfl
  case isFalse h =>
    cases hdm : day_mapping (pyStrip (pyLower (safe_get row (("stLesdag").data ++ natStr i)))) with
    | none => rfl
    | some code =>
      cases hpt : parseTime (safe_get row (("stLestijd").data ++ natStr i)) with
      | none => rfl
      | some hm =>
        obtain ⟨hh, mm⟩ := hm
        simp [eraseDtstart]

theorem studentRowF_snd_eraseDtstart (d1 d2 n : Nat) (r : Row) :
    ((studentRowF d1 n r).2).map eraseDtstart
      = ((studentRowF d2 n r).2).map eraseDtstart :=
  filterMap_map_congr eraseDtstart
    (fun i => lessonSlot_eraseDtstart d1 d2 _ _ _ _ r i) [1, 2]

/-- C2 (amended): for a fixed list of parsed rows, the songs and notation
converters are pure functions of the rows alone, and the students converter is
a pure function of the rows and the current date; runs on different dates agree
on the students list and on every schedule field except `ical.DTSTART`, which
encodes the next occurrence of the lesson day relative to the run date and so
varies between runs on different dates. -/
theorem c2_deterministic_up_to_dtstart (rows : List Row) (d1 d2 : Nat) :
    (convert_students_rows d1 rows).1 = (convert_students_rows d2 rows).1
    ∧ (convert_students_rows d1 rows).2.map eraseDtstart
        = (convert_students_rows d2 rows).2.map eraseDtstart := by
  constructor
  · simp [convert_students_rows, convertLoop_ok]
    intro a b _
    rfl
  · simp [convert_students_rows, convertLoop_ok, flatMap_map_snd]
    rw [List.map_flatMap, List.map_flatMap]
    exact flatMap_congr (fun p _ => studentRowF_snd_eraseDtstart d1 d2 p.1 p.2)

theorem c2_counterexample :
    convert_students_rows 0 [rowMa] ≠ convert_students_rows 7 [rowMa] := by decide

/-! ### Calendar rules, defaults and constant fields (claims C4, C6, C10) -/

theorem day_mapping_ne_nil {d : Str} {code : Str} (h : day_mapping d = some code) :
    d ≠ [] := by
  intro he
  rw [he] at h
  cases h

theorem parseTime_nil : parseTime ([] : Str) = none := rfl

/-- The guard of the schedule loop passes when the day is in the table and the
time parses. -/
theorem lessonSlot_guard {row : Row} {i : Nat} {code : Str} {hours minutes : Int}
    (hdm : day_mapping (pyStrip (pyLower (safe_get row (("stLesdag").data ++ natStr i))))
      = some code)
    (hpt : parseTime (safe_get row (("stLestijd").data ++ natStr i))
      = some (hours, minutes)) :
    ¬(safe_get row (("stLesdag").data ++ natStr i) = []
      ∨ safe_get row (("stLestijd").data ++ natStr i) = []
      ∨ safe_get row (("stLesdag").data ++ natStr i) = ("nan").data
      ∨ safe_get row (("stLestijd").data ++ natStr i) = ("nan").data) := by
  rintro (he | he | he | he)
  · rw [he] at hdm
    cases hdm
  · rw [he, parseTime_nil] at hpt
    cases hpt
  · have h0 : day_mapping (pyStrip (pyLower (("nan").data))) = none := by decide
    rw [he, h0] at hdm
    cases hdm
  · rw [he] at hpt
    have : parseTime (("nan").data) = none := by decide
    rw [this] at hpt
    cases hpt

/-- The schedule entry emitted for a valid day and a parsed time, explicitly. -/
theorem lessonSlot_eq_some (today : Nat) (sid nm em : Str) (sn : Option Str)
    (row : Row) (i : Nat) (code : Str) (hours minutes : Int)
    (hdm : day_mapping (pyStrip (pyLower (safe_get row (("stLesdag").data ++ natStr i))))
      = some code)
    (hpt : parseTime (safe_get row (("stLestijd").data ++ natStr i))
      = some (hours, minutes)) :
    lessonSlot today sid nm em sn row i = some
      { studentId := sid
        studentName := nm
        email := em
        dayOfWeek := code
        startTime := pad2 hours ++ ':' :: pad2 minutes
        durationMin := lessonDuration (safe_get row (("stLesduur").data ++ natStr i))
        timezone := ("Europe/Amsterdam").data
        frequency := ("WEEKLY").data
        ical :=
          { dtstart := mkDtstart today code (pad2 hours ++ ':' :: pad2 minutes)
            tzid := ("Europe/Amsterdam").data
            rrule := ("FREQ=WEEKLY;BYDAY=").data ++ code
              ++ (";BYHOUR=").data ++ intStr hours
              ++ (";BYMINUTE=").data ++ intStr minutes
              ++ (";BYSECOND=0").data }
        notes := sn } := by
  rw [lessonSlot, if_neg (lessonSlot_guard hdm hpt), hdm, hpt]

/-- C4: a student row whose lesson day is in the day table and whose lesson
time parses yields a schedule entry with frequency `WEEKLY` and the exact
RRULE string built from the day code and the parsed (unvalidated) hour and
minute; a row whose day is not in the table yields no entry. -/
theorem c4_calendar_rule (today : Nat) (sid nm em : Str) (sn : Option Str)
    (row : Row) (i : Nat) (code : Str) (hours minutes : Int) :
    (day_mapping (pyStrip (pyLower (safe_get row (("stLesdag").data ++ natStr i))))
        = some code →
      parseTime (safe_get row (("stLestijd").data ++ natStr i)) = some (hours, minutes) →
      (lessonSlot today sid nm em sn row i).map (fun e => (e.frequency, e.ical.rrule))
        = some ((("WEEKLY").data,
            ("FREQ=WEEKLY;BYDAY=").data ++ code ++ (";BYHOUR=").data ++ intStr hours
              ++ (";BYMINUTE=").data ++ intStr minutes ++ (";BYSECOND=0").data)))
    ∧ (day_mapping (pyStrip (pyLower (safe_get row (("stLesdag").data ++ natStr i))))
        = none →
      lessonSlot today sid nm em sn row i = none) := by
  constructor
  · intro hdm hpt
    rw [lessonSlot_eq_some today sid nm em sn row i code hours minutes hdm hpt]
    rfl
  · intro hdm
    rw [lessonSlot]
    split
    · rfl
    · rw [hdm]

theorem c4_calendar_rule_witness :
    (lessonSlot 0 (("1").data) [] [] none rowMa 1).map (fun e => (e.frequency, e.ical.rrule))
      = some ((("WEEKLY").data,
          ("FREQ=WEEKLY;BYDAY=").data ++ ("MO").data ++ (";BYHOUR=").data ++ intStr 10
            ++ (";BYMINUTE=").data ++ intStr 0 ++ (";BYSECOND=0").data))
    ∧ lessonSlot 0 [] [] [] none [] 1 = none :=
  ⟨(c4_calendar_rule 0 (("1").data) [] [] none rowMa 1 (("MO").data) 10 0).1
      (by decide) (by decide),
   (c4_calendar_rule 0 [] [] [] none [] 1 [] 0 0).2 (by decide)⟩

/-- C6: `Song #<row_num>` and `Unknown Artist` when both title/artist columns
are absent, `Pattern #<row_num>` when category, chapter and sequence are all
absent, and a 30-minute duration when the duration field is absent or not an
integer. -/
theorem c6_defaults (n : Nat) (row : Row) (today : Nat) (sid nm em : Str)
    (sn : Option Str) (i : Nat) (e : ScheduleEntry) :
    (safe_get row (("soTitel").data) = [] → safe_get row (("titel").data) = [] →
      (songRow n row).title = ("Song #").data ++ natStr n)
    ∧ (safe_get row (("soArtiest").data) = [] → safe_get row (("artiest").data) = [] →
      (songRow n row).artist = ("Unknown Artist").data)
    ∧ (safe_get row (("noCategorie").data) = [] → safe_get row (("categorie").data) = [] →
       safe_get row (("noHoofdstuk").data) = [] → safe_get row (("hoofdstuk").data) = [] →
       safe_get row (("noVolgnummer").data) = [] → safe_get row (("volgnummer").data) = [] →
      (notatieRow n row).title = ("Pattern #").data ++ natStr n)
    ∧ (lessonSlot today sid nm em sn row i = some e →
       safe_get row (("stLesduur").data ++ natStr i) = []
         ∨ pyInt (safe_get row (("stLesduur").data ++ natStr i)) = none →
       e.durationMin = 30) := by
  refine ⟨?_, ?_, ?_, ?_⟩
  · intro h1 h2
    show songTitle n row = _
    rw [songTitle, h1, h2]
    rfl
  · intro h1 h2
    show songArtist row = _
    rw [songArtist, h1, h2]
    rfl
  · intro h1 h2 h3 h4 h5 h6
    show notatieTitle n row = _
    rw [notatieTitle, h1, h2, h5, h6]
    simp [pyOr]
  · intro hsome hdur
    rw [lessonSlot] at hsome
    split at hsome
    · cases hsome
    · split at hsome
      · cases hsome
      · split at hsome
        · cases hsome
        · cases hsome
          show lessonDuration (safe_get row (("stLesduur").data ++ natStr i)) = 30
          rcases hdur with hdur | hdur
          · rw [lessonDuration, if_pos (Or.inl hdur)]
          · rw [lessonDuration]
            split
            · rfl
            · rw [hdur]
              rfl

theorem c6_defaults_witness :
    (songRow 1 rowMa).title = ("Song #").data ++ natStr 1
    ∧ (songRow 1 rowMa).artist = ("Unknown Artist").data
    ∧ (notatieRow 1 rowMa).title = ("Pattern #").data ++ natStr 1
    ∧ entryMa.durationMin = 30 :=
  ⟨(c6_defaults 1 rowMa 0 (("1").data) [] [] none 1 entryMa).1 (by decide) (by decide),
   (c6_defaults 1 rowMa 0 (("1").data) [] [] none 1 entryMa).2.1 (by decide) (by decide),
   (c6_defaults 1 rowMa 0 (("1").data) [] [] none 1 entryMa).2.2.1
     (by decide) (by decide) (by decide) (by decide) (by decide) (by decide),
   (c6_defaults 1 rowMa 0 (("1").data) [] [] none 1 entryMa).2.2.2
     (by decide) (Or.inl (by decide))⟩

/-- Every emitted schedule entry carries the Amsterdam timezone in both the
`timezone` field and `ical.TZID`. -/
theorem lessonSlot_const {today : Nat} {sid nm em : Str} {sn : Option Str}
    {row : Row} {i : Nat} {e : ScheduleEntry}
    (h : lessonSlot today sid nm em sn row i = some e) :
    e.timezone = ("Europe/Amsterdam").data ∧ e.ical.tzid = ("Europe/Amsterdam").data := by
  rw [lessonSlot] at h
  split at h
  · cases h
  · split at h
    · cases h
    · split at h
      · cases h
      · cases h
        exact ⟨rfl, rfl⟩

/-- C10: constant fields of every emitted record: songs carry instrument
`drums` and level `all`; lessons carry contentType `notation`, instrument
`drums` and level `all`; students carry instrument `drums`; schedule entries
carry timezone `Europe/Amsterdam` in both places. -/
theorem c10_constant_fields (rows : List Row) (today : Nat) (s : Song) (l : Lesson)
    (st : Student) (e : ScheduleEntry) :
    (s ∈ convert_songs_rows rows →
      s.instrument = ("drums").data ∧ s.level = ("all").data)
    ∧ (l ∈ convert_notatie_rows rows →
      l.contentType = ("notation").data ∧ l.instrument = ("drums").data
        ∧ l.level = ("all").data)
    ∧ (st ∈ (convert_students_rows today rows).1 → st.instrument = ("drums").data)
    ∧ (e ∈ (convert_students_rows today rows).2 →
      e.timezone = ("Europe/Amsterdam").data
        ∧ e.ical.tzid = ("Europe/Amsterdam").data) := by
  refine ⟨?_, ?_, ?_, ?_⟩
  · intro hs
    rw [convert_songs_rows, convertLoop_ok] at hs
    obtain ⟨p, _, rfl⟩ := List.mem_map.mp hs
    exact ⟨rfl, rfl⟩
  · intro hl
    rw [convert_notatie_rows, convertLoop_ok] at hl
    obtain ⟨p, _, rfl⟩ := List.mem_map.mp hl
    exact ⟨rfl, rfl, rfl⟩
  · intro hst
    simp only [convert_students_rows, convertLoop_ok] at hst
    obtain ⟨q, hq, rfl⟩ := List.mem_map.mp hst
    obtain ⟨p, _, rfl⟩ := List.mem_map.mp hq
    rfl
  · intro he
    simp only [convert_students_rows, convertLoop_ok] at he
    rw [flatMap_map_snd] at he
    obtain ⟨p, _, hpe⟩ := List.mem_flatMap.mp he
    obtain ⟨i, _, hle⟩ := List.mem_filterMap.mp hpe
    exact lessonSlot_const hle

/-! ### Time parsing without clock-range validation (claim C9) -/

theorem splitOnChar_ne_nil (γ : Char) (l : Str) : splitOnChar γ l ≠ [] := by
  induction l with
  | nil => simp [splitOnChar]
  | cons x xs ih =>
    simp only [splitOnChar]
    split
    · simp
    · cases hr : splitOnChar γ xs with
      | nil => exact absurd hr ih
      | cons h t => simp

theorem splitOnChar_one (γ : Char) : ∀ (l a : Str),
    splitOnChar γ l = [a] ↔ (l = a ∧ γ ∉ a) := by
  intro l
  induction l with
  | nil =>
    intro a
    constructor
    · intro h
      injection h with h1 h2
      exact ⟨h1, by rw [← h1]; simp⟩
    · rintro ⟨h1, _⟩
      rw [← h1]
      rfl
  | cons x xs ih =>
    intro a
    by_cases hx : x = γ
    · subst hx
      have hsp : splitOnChar x (x :: xs) = [] :: splitOnChar x xs := by
        simp [splitOnChar]
      constructor
      · intro h
        rw [hsp] at h
        injection h with h1 h2
        exact absurd h2 (splitOnChar_ne_nil x xs)
      · rintro ⟨h1, h2⟩
        rw [← h1] at h2
        exact absurd (List.mem_cons_self x xs) h2
    · cases hr : splitOnChar γ xs with
      | nil => exact absurd hr (splitOnChar_ne_nil γ xs)
      | cons rh rt =>
        have hsp : splitOnChar γ (x :: xs) = (x :: rh) :: rt := by
          simp only [splitOnChar, hr]
          rw [if_neg hx]
        rw [hsp]
        constructor
        · intro h
          injection h with h1 h2
          subst h2
          obtain ⟨hxs, hγ⟩ := (ih rh).mp hr
          refine ⟨by rw [← h1, hxs], ?_⟩
          rw [← h1]
          intro hm
          rcases List.mem_cons.mp hm with hm | hm
          · exact hx hm.symm
          · exact hγ hm
        · rintro ⟨h1, h2⟩
          have hxa : a = x :: xs := h1.symm
          subst hxa
          have hγxs : γ ∉ xs := fun hm => h2 (List.mem_cons_of_mem x hm)
          have : splitOnChar γ xs = [xs] := (ih xs).mpr ⟨rfl, hγxs⟩
          rw [this] at hr
          injection hr with h3 h4
          rw [h3, h4]

theorem splitOnChar_two (γ : Char) : ∀ (l a b : Str),
    splitOnChar γ l = [a, b] ↔ (l = a ++ γ :: b ∧ γ ∉ a ∧ γ ∉ b) := by
  intro l
  induction l with
  | nil =>
    intro a b
    constructor
    · intro h
      injection h with h1 h2
      cases h2
    · rintro ⟨h1, _, _⟩
      simp at h1
  | cons x xs ih =>
    intro a b
    by_cases hx : x = γ
    · subst hx
      have hsp : splitOnChar x (x :: xs) = [] :: splitOnChar x xs := by
        simp [splitOnChar]
      rw [hsp]
      constructor
      · intro h
        injection h with h1 h2
        obtain ⟨hxs, hγ⟩ := (splitOnChar_one x xs b).mp h2
        exact ⟨by rw [← h1, hxs]; rfl, by rw [← h1]; simp, hγ⟩
      · rintro ⟨h1, h2, h3⟩
        have ha : a = [] := by
          cases ha : a with
          | nil => rfl
          | cons ah at_ =>
            rw [ha] at h1 h2
            injection h1 with h4 h5
            exact absurd (by rw [h4]; exact List.mem_cons_self _ _) h2
        subst ha
        injection h1 with h4 h5
        rw [(splitOnChar_one x xs b).mpr ⟨h5, h3⟩]
    · cases hr : splitOnChar γ xs with
      | nil => exact absurd hr (splitOnChar_ne_nil γ xs)
      | cons rh rt =>
        have hsp : splitOnChar γ (x :: xs) = (x :: rh) :: rt := by
          simp only [splitOnChar, hr]
          rw [if_neg hx]
        rw [hsp]
        constructor
        · intro h
          injection h with h1 h2
          have hrt : splitOnChar γ xs = [rh, b] := by rw [hr, h2]
          obtain ⟨hxs, hγa, hγb⟩ := (ih rh b).mp hrt
          refine ⟨by rw [← h1, hxs]; rfl, ?_, hγb⟩
          rw [← h1]
          intro hm
          rcases List.mem_cons.mp hm with hm | hm
          · exact hx hm.symm
          · exact hγa hm
        · rintro ⟨h1, h2, h3⟩
          cases ha : a with
          | nil =>
            rw [ha] at h1
            injection h1 with h4 h5
            exact absurd h4 hx
          | cons ah at_ =>
            rw [ha] at h1 h2
            injection h1 with h4 h5
            have hγat : γ ∉ at_ := fun hm => h2 (List.mem_cons_of_mem _ hm)
            have : splitOnChar γ xs = [at_, b] := (ih at_ b).mpr ⟨h5, hγat, h3⟩
            rw [this] at hr
            injection hr with h6 h7
            rw [h4, h6, h7]

theorem mapDots_eq_self {a : Str} (h : ∀ x ∈ a, ¬x = '.') : mapDots a = a := by
  rw [mapDots]
  have := List.map_congr_left (l := a) (f := fun c => if c = '.' then ':' else c)
    (g := id) (fun x hx => by simp [h x hx])
  rw [this, List.map_id]

/-- The characterization of the time fields accepted by the schedule loop:
exactly one separator (`:` or `.`), both sides Python integers. -/
theorem parseTime_eq_some_iff (t : Str) (hours minutes : Int) :
    parseTime t = some (hours, minutes) ↔
      ∃ a c b, t = a ++ c :: b ∧ (c = ':' ∨ c = '.')
        ∧ (∀ x ∈ a, ¬x = ':' ∧ ¬x = '.') ∧ (∀ x ∈ b, ¬x = ':' ∧ ¬x = '.')
        ∧ pyInt a = some hours ∧ pyInt b = some minutes := by
  constructor
  · intro h
    by_cases hcond : ':' ∈ mapDots t ∧ (splitOnChar ':' (mapDots t)).length = 2
    case neg =>
      have hnone : parseTime t = none := by
        simp only [parseTime]
        rw [if_neg hcond]
      rw [hnone] at h
      cases h
    case pos =>
      rcases hsp : splitOnChar ':' (mapDots t) with _ | ⟨hs, _ | ⟨ms, _ | ⟨r3, rr⟩⟩⟩
      · exact absurd hsp (splitOnChar_ne_nil ':' (mapDots t))
      · rw [hsp] at hcond
        simp at hcond
      · have hred : parseTime t =
            (match pyInt hs, pyInt ms with
              | some hv, some mv => some ((hv : Int), (mv : Int))
              | _, _ => none) := by
          simp only [parseTime]
          rw [if_pos hcond, hsp]
        rw [hred] at h
        cases hih : pyInt hs with
        | none =>
          rw [hih] at h
          simp at h
        | some hv =>
          cases him : pyInt ms with
          | none =>
            rw [hih, him] at h
            simp at h
          | some mv =>
            rw [hih, him] at h
            simp only [Option.some.injEq, Prod.mk.injEq] at h
            obtain ⟨hv1, hv2⟩ := h
            obtain ⟨hmap, hγhs, hγms⟩ := (splitOnChar_two ':' (mapDots t) hs ms).mp hsp
            rw [mapDots] at hmap
            obtain ⟨l₁, l₂, ht, hm1, hm2⟩ := List.map_eq_append_iff.mp hmap
            obtain ⟨c, b, hl₂, hc, hb⟩ := List.map_eq_cons_iff.mp hm2
            have hcc : c = ':' ∨ c = '.' := by
              by_cases hdot : c = '.'
              · exact Or.inr hdot
              · rw [if_neg hdot] at hc
                exact Or.inl hc
            have hnoa : ∀ x ∈ l₁, ¬x = ':' ∧ ¬x = '.' := by
              intro x hx
              constructor
              · intro hxc
                apply hγhs
                rw [← hm1]
                refine List.mem_map.mpr ⟨x, hx, ?_⟩
                rw [hxc]
                rfl
              · intro hxc
                apply hγhs
                rw [← hm1]
                refine List.mem_map.mpr ⟨x, hx, ?_⟩
                rw [hxc]
                rfl
            have hnob : ∀ x ∈ b, ¬x = ':' ∧ ¬x = '.' := by
              intro x hx
              constructor
              · intro hxc
                apply hγms
                rw [← hb]
                refine List.mem_map.mpr ⟨x, hx, ?_⟩
                rw [hxc]
                rfl
              · intro hxc
                apply hγms
                rw [← hb]
                refine List.mem_map.mpr ⟨x, hx, ?_⟩
                rw [hxc]
                rfl
            have hsa : hs = l₁ := by
              rw [← hm1, ← mapDots]
              exact mapDots_eq_self (fun x hx => (hnoa x hx).2)
            have hmb : ms = b := by
              rw [← hb, ← mapDots]
              exact mapDots_eq_self (fun x hx => (hnob x hx).2)
            refine ⟨l₁, c, b, by rw [ht, hl₂], hcc, hnoa, hnob, ?_, ?_⟩
            · rw [← hsa, hih, hv1]
            · rw [← hmb, him, hv2]
      · rw [hsp] at hcond
        simp at hcond
  · rintro ⟨a, c, b, rfl, hc, ha, hb, hia, hib⟩
    have hmap : mapDots (a ++ c :: b) = a ++ ':' :: b := by
      rw [mapDots, List.map_append, List.map_cons]
      have h1 : List.map (fun c => if c = '.' then ':' else c) a = a := by
        rw [← mapDots]
        exact mapDots_eq_self (fun x hx => (ha x hx).2)
      have h2 : List.map (fun c => if c = '.' then ':' else c) b = b := by
        rw [← mapDots]
        exact mapDots_eq_self (fun x hx => (hb x hx).2)
      have h3 : (if c = '.' then ':' else c) = ':' := by
        rcases hc with hc | hc
        · rw [hc]
          rfl
        · rw [if_pos hc]
      rw [h1, h2, h3]
    have hsp : splitOnChar ':' (mapDots (a ++ c :: b)) = [a, b] := by
      rw [hmap]
      exact (splitOnChar_two ':' _ a b).mpr
        ⟨rfl, fun hm => (ha ':' hm).1 rfl, fun hm => (hb ':' hm).1 rfl⟩
    have hcnd : ':' ∈ mapDots (a ++ c :: b)
        ∧ (splitOnChar ':' (mapDots (a ++ c :: b))).length = 2 := by
      constructor
      · rw [hmap]
        exact List.mem_append_right a (List.mem_cons_self ':' b)
      · rw [hsp]
        rfl
    have hred : parseTime (a ++ c :: b) =
        (match pyInt a, pyInt b with
          | some hv, some mv => some ((hv : Int), (mv : Int))
          | _, _ => none) := by
      simp only [parseTime]
      rw [if_pos hcnd, hsp]
    rw [hred, hia, hib]

/-- C9: the lesson-time parser accepts exactly the fields made of two Python
integers joined by a single `:` or `.`, performs no clock-range validation
(the parsed hour and minute are emitted as zero-padded `%02d` values joined by
`:` whatever their size), and any other time field yields no schedule entry. -/
theorem c9_no_clock_validation (today : Nat) (sid nm em : Str) (sn : Option Str)
    (row : Row) (i : Nat) (t : Str) (hours minutes : Int) (code : Str) :
    (parseTime t = some (hours, minutes) ↔
      ∃ a c b, t = a ++ c :: b ∧ (c = ':' ∨ c = '.')
        ∧ (∀ x ∈ a, ¬x = ':' ∧ ¬x = '.') ∧ (∀ x ∈ b, ¬x = ':' ∧ ¬x = '.')
        ∧ pyInt a = some hours ∧ pyInt b = some minutes)
    ∧ (day_mapping (pyStrip (pyLower (safe_get row (("stLesdag").data ++ natStr i))))
        = some code →
      parseTime (safe_get row (("stLestijd").data ++ natStr i)) = some (hours, minutes) →
      (lessonSlot today sid nm em sn row i).map ScheduleEntry.startTime
        = some (pad2 hours ++ ':' :: pad2 minutes))
    ∧ (parseTime (safe_get row (("stLestijd").data ++ natStr i)) = none →
      lessonSlot today sid nm em sn row i = none) := by
  refine ⟨parseTime_eq_some_iff t hours minutes, ?_, ?_⟩
  · intro hdm hpt
    rw [lessonSlot_eq_some today sid nm em sn row i code hours minutes hdm hpt]
    rfl
  · intro hpt
    rw [lessonSlot]
    split
    · rfl
    · cases hdm : day_mapping (pyStrip (pyLower (safe_get row (("stLesdag").data ++ natStr i)))) with
      | none => rfl
      | some dcode => rw [hpt]

theorem c9_no_clock_validation_witness :
    parseTime (("25.99").data) = some (25, 99)
    ∧ (lessonSlot 0 (("1").data) [] [] none rowHigh 1).map ScheduleEntry.startTime
        = some (("25:99").data)
    ∧ lessonSlot 0 (("1").data) [] [] none [] 1 = none :=
  ⟨(c9_no_clock_validation 0 (("1").data) [] [] none rowHigh 1 (("25.99").data)
        25 99 (("MO").data)).1.mpr
      ⟨("25").data, '.', ("99").data, rfl, Or.inr rfl, by decide, by decide,
        by decide, by decide⟩,
   (c9_no_clock_validation 0 (("1").data) [] [] none rowHigh 1 (("25.99").data)
        25 99 (("MO").data)).2.1 (by decide) (by decide),
   (c9_no_clock_validation 0 (("1").data) [] [] none [] 1 [] 0 0 []).2.2 (by decide)⟩

theorem c10_constant_fields_witness :
    ((songRow 1 rowMa).instrument = ("drums").data
      ∧ (songRow 1 rowMa).level = ("all").data)
    ∧ ((notatieRow 1 rowMa).contentType = ("notation").data
      ∧ (notatieRow 1 rowMa).instrument = ("drums").data
      ∧ (notatieRow 1 rowMa).level = ("all").data)
    ∧ (studentRowF 0 1 rowMa).1.instrument = ("drums").data
    ∧ (entryMa.timezone = ("Europe/Amsterdam").data
      ∧ entryMa.ical.tzid = ("Europe/Amsterdam").data) :=
  ⟨(c10_constant_fields [rowMa] 0 (songRow 1 rowMa) (notatieRow 1 rowMa)
      ((studentRowF 0 1 rowMa).1) entryMa).1 (by decide),
   (c10_constant_fields [rowMa] 0 (songRow 1 rowMa) (notatieRow 1 rowMa)
      ((studentRowF 0 1 rowMa).1) entryMa).2.1 (by decide),
   (c10_constant_fields [rowMa] 0 (songRow 1 rowMa) (notatieRow 1 rowMa)
      ((studentRowF 0 1 rowMa).1) entryMa).2.2.1 (by decide),
   (c10_constant_fields [rowMa] 0 (songRow 1 rowMa) (notatieRow 1 rowMa)
      ((studentRowF 0 1 rowMa).1) entryMa).2.2.2 (by decide)⟩

end Musicdott
